import Mathlib

/-
  Shallow embedding of the string-analysis HTTP service in src/server.js.

  Conventions of the embedding:
  * JS strings are modelled as Lean `String` / `List Char` (the service is
    exercised on ASCII data; `.length`, iteration and reversal are modelled
    character-wise).
  * The global mutable `stringsBank` is threaded explicitly: every handler
    takes the bank and returns the bank it leaves behind.
  * External collaborators (the hash function `hashString`, the clock used
    for `created_at`, and the `fs.writeFile` persistence call) are passed in
    as parameters: the hash and timestamp as opaque strings, the persistence
    outcome as a two-valued `PersistOutcome` (an `ok` write or a rejected
    promise caught by the handler's try/catch).
  * A handler that throws without writing any response (an exception escaping
    the handler boundary) is modelled by returning `none` for the response.
-/

namespace StringAnalysis

/-- ASCII whitespace, as matched by JS `String.prototype.trim` and the
regexp class used in `value.trim().split` of server.js (the service only
meets ASCII input; the Unicode-only whitespace code points are not modelled). -/
def jsWhitespace (c : Char) : Bool :=
  c == ' ' || c == '\t' || c == '\n' || c == '\r' ||
    c == Char.ofNat 11 || c == Char.ofNat 12

/-- Value of a decimal digit character, `none` for anything else. -/
def decDigit (c : Char) : Option Nat :=
  if '0' ≤ c ∧ c ≤ '9' then some (c.toNat - '0'.toNat) else none

/-- Value of a hexadecimal digit character, `none` for anything else. -/
def hexDigit (c : Char) : Option Nat :=
  if '0' ≤ c ∧ c ≤ '9' then some (c.toNat - '0'.toNat)
  else if 'a' ≤ c ∧ c ≤ 'f' then some (c.toNat - 'a'.toNat + 10)
  else if 'A' ≤ c ∧ c ≤ 'F' then some (c.toNat - 'A'.toNat + 10)
  else none

/-- Accumulate the maximal leading digit run of `l` into a number. -/
def digitsVal (base : Nat) (digit : Char → Option Nat) : List Char → Nat → Nat
  | [], acc => acc
  | c :: rest, acc =>
    match digit c with
    | some d => digitsVal base digit rest (acc * base + d)
    | none => acc

/-- Parse the maximal leading digit run; `none` when there is no digit. -/
def parseLeadingNat (base : Nat) (digit : Char → Option Nat) (l : List Char) :
    Option Nat :=
  match l with
  | [] => none
  | c :: _ => if (digit c).isSome then some (digitsVal base digit l 0) else none

/-- Magnitude part of JS `parseInt` with radix unspecified: a `0x`/`0X`
leading pair selects hexadecimal, otherwise decimal; `none` is `NaN`. -/
def jsParseIntCore (l : List Char) : Option Nat :=
  match l with
  | '0' :: 'x' :: rest => parseLeadingNat 16 hexDigit rest
  | '0' :: 'X' :: rest => parseLeadingNat 16 hexDigit rest
  | _ => parseLeadingNat 10 decDigit l

/-- JS `parseInt(s)`: skip leading whitespace, read an optional sign, then
the maximal digit run; `none` models `NaN` (so `isNaN(parseInt(s))` is
`(jsParseInt s).isNone`). Parsing stops at the first non-digit, so e.g.
`"12ab"` parses to `12` while `"abc"` is `NaN`. -/
def jsParseInt (s : String) : Option Int :=
  match s.data.dropWhile jsWhitespace with
  | '-' :: rest => (jsParseIntCore rest).map (fun n => -(n : Int))
  | '+' :: rest => (jsParseIntCore rest).map (fun n => (n : Int))
  | l => (jsParseIntCore l).map (fun n => (n : Int))

/-- `listStartsWith needle hay` is true when `needle` is an initial run of
`hay`. -/
def listStartsWith : List Char → List Char → Bool
  | [], _ => true
  | _ :: _, [] => false
  | a :: as, b :: bs => a == b && listStartsWith as bs

/-- `listIncludes needle hay`: `needle` occurs contiguously inside `hay`
(the semantics of JS `hay.includes(needle)`). -/
def listIncludes (needle : List Char) : List Char → Bool
  | [] => needle.isEmpty
  | b :: bs => listStartsWith needle (b :: bs) || listIncludes needle bs

/-- JS `hay.includes(needle)` on strings. -/
def strIncludes (hay needle : String) : Bool :=
  listIncludes needle.data hay.data

/-- Lower-case an ASCII letter (used to model a case-insensitive regexp). -/
def toLowerCh (c : Char) : Char :=
  if 'A' ≤ c ∧ c ≤ 'Z' then Char.ofNat (c.toNat + 32) else c

/-- Case-insensitive `listStartsWith`. -/
def listStartsWithCI (needle hay : List Char) : Bool :=
  listStartsWith (needle.map toLowerCh) (hay.map toLowerCh)

/-- Case-insensitive substring containment, modelling a `/…/i` regexp test. -/
def includesCI (hay needle : List Char) : Bool :=
  listIncludes (needle.map toLowerCh) (hay.map toLowerCh)

/- ------------------------------------------------------------------ -/
/- The analyzer: the property computations of the create handler.      -/
/- ------------------------------------------------------------------ -/

/-- `value.replaceAll(" ", "")`: every space (and only the space character)
removed. -/
def removeSpaces (s : String) : List Char :=
  s.data.filter (fun c => c != ' ')

/-- One step of the `charCounts` Map update of server.js: bump the count of
`c`, keeping the first-occurrence insertion order (an existing key keeps its
position, a new key is appended). -/
def bumpChar : List (Char × Nat) → Char → List (Char × Nat)
  | [], c => [(c, 1)]
  | (k, n) :: rest, c =>
    if k = c then (k, n + 1) :: rest else (k, n) :: bumpChar rest c

/-- The `character_frequency_map` of server.js: counts over the value with
all spaces removed, insertion order = first occurrence. -/
def characterFrequencyMap (s : String) : List (Char × Nat) :=
  (removeSpaces s).foldl bumpChar []

/-- `is_palindrome` of server.js: false, flipped to true exactly when the
value is non-empty and `value.split("").reverse().join("")` equals it. -/
def isPalindrome (s : String) : Bool :=
  decide (0 < s.length) && s.data.reverse == s.data

/-- One step of `new Set(value)` construction: add a character unless it is
already present. -/
def setInsert (acc : List Char) (c : Char) : List Char :=
  if acc.contains c then acc else acc ++ [c]

/-- `new Set(value).size` of server.js: the number of distinct characters of
the unmodified value (spaces included). -/
def uniqueCharacters (s : String) : Nat :=
  (s.data.foldl setInsert []).length

/-- JS `value.trim()` on the character list. -/
def jsTrim (l : List Char) : List Char :=
  ((l.dropWhile jsWhitespace).reverse.dropWhile jsWhitespace).reverse

/-- Number of maximal non-whitespace runs of `l`; on a trimmed non-empty
string this is exactly `trimmed.split(regexp of whitespace runs).length`. -/
def countWsRuns : List Char → Bool → Nat
  | [], _ => 0
  | c :: rest, inWord =>
    if jsWhitespace c then countWsRuns rest false
    else (if inWord then 0 else 1) + countWsRuns rest true

/-- `word_count` of server.js: `value.trim() === "" ? 0 :
value.trim().split(whitespace-run regexp).length`. -/
def wordCount (s : String) : Nat :=
  if jsTrim s.data = [] then 0 else countWsRuns (jsTrim s.data) false

/- ------------------------------------------------------------------ -/
/- Records and the data bank.                                          -/
/- ------------------------------------------------------------------ -/

/-- The `properties` block of a stored record. -/
structure Properties where
  length : Nat
  is_palindrome : Bool
  unique_characters : Nat
  word_count : Nat
  sha256_hash : String
  character_frequency_map : List (Char × Nat)
deriving DecidableEq, Repr

/-- One element of `stringsBank`: a stored string plus its analysis. -/
structure StringRecord where
  id : String
  value : String
  properties : Properties
  created_at : String
deriving DecidableEq, Repr

/-- The `responseObject` built by the create handler, with the external hash
and clock results passed in. -/
def buildRecord (hash timestamp value : String) : StringRecord :=
  { id := hash
    value := value
    properties :=
      { length := value.length
        is_palindrome := isPalindrome value
        unique_characters := uniqueCharacters value
        word_count := wordCount value
        sha256_hash := hash
        character_frequency_map := characterFrequencyMap value }
    created_at := timestamp }

/- ------------------------------------------------------------------ -/
/- Request bodies and responses.                                       -/
/- ------------------------------------------------------------------ -/

/-- A JS value as seen by the create handler's `typeof` test: a string, or
one of the non-string shapes a parsed JSON / form body can hold. -/
inductive JsVal where
  | vStr (s : String)
  | vNum (n : Int)
  | vBool (b : Bool)
  | vNull
  | vObj
  | vArr
deriving DecidableEq, Repr

/-- `typeof v === "string"` as a Boolean. -/
def JsVal.isStr : JsVal → Bool
  | .vStr _ => true
  | _ => false

/-- The structured `req.body` produced by the middleware: only its `value`
field matters to the create handler; `none` models an absent field (JS
`undefined`). -/
structure Body where
  value : Option JsVal := none
deriving DecidableEq, Repr

/-- The outcome of the awaited `fs.writeFile` call: a fulfilled write, or a
rejection (an I/O error) that the surrounding try/catch receives. -/
inductive PersistOutcome where
  | ok
  | fail
deriving DecidableEq, Repr

/-- The `filters_applied` object of the list/filter handler, echoing the
parsed values of exactly the parameters that were present. -/
structure FiltersApplied where
  is_palindrome : Option Bool := none
  min_length : Option Int := none
  max_length : Option Int := none
  word_count : Option Int := none
  contains_character : Option String := none
deriving DecidableEq, Repr

/-- The `parsed_filters` object of the natural-language handler. -/
structure ParsedFilters where
  is_palindrome : Option Bool := none
  word_count : Option Nat := none
  min_length : Option Nat := none
  contains_character : Option String := none
deriving DecidableEq, Repr

/-- The 200 body of the list/filter handler. -/
structure ListResult where
  data : List StringRecord
  count : Nat
  filters_applied : FiltersApplied
deriving DecidableEq, Repr

/-- The 200 body of the natural-language handler. -/
structure NLResult where
  data : List StringRecord
  count : Nat
  original : String
  parsed_filters : ParsedFilters
deriving DecidableEq, Repr

/-- The JSON body written with a response. -/
inductive RespBody where
  | errMsg (message : String)
  | created (data : StringRecord)
  | fetched (data : StringRecord)
  | listing (result : ListResult)
  | nlResult (result : NLResult)
  | empty
deriving DecidableEq, Repr

/-- An HTTP response: status code plus body. -/
structure HttpResponse where
  status : Nat
  body : RespBody
deriving DecidableEq, Repr

/- ------------------------------------------------------------------ -/
/- Create handler (`finalHandler` of server.js).                       -/
/- ------------------------------------------------------------------ -/

/-- The POST /strings handler. Checks run in the source order: absent
`value` → 400, non-string `value` → 422, duplicate `value` → 409, each
returning at once. On success the record is pushed onto the bank *before*
`fs.writeFile` is awaited; a write failure is caught and answered with 500
but the push is not rolled back. -/
def finalHandler (persist : PersistOutcome) (hash timestamp : String)
    (body : Body) (bank : List StringRecord) :
    HttpResponse × List StringRecord :=
  match body.value with
  | none =>
      ({ status := 400
         body := .errMsg "Invalid request body or missing 'value' field" },
       bank)
  | some (.vStr value) =>
      if bank.any (fun el => el.value == value) then
        ({ status := 409
           body := .errMsg "String already exists in the system" }, bank)
      else
        let record := buildRecord hash timestamp value
        let bank' := bank ++ [record]
        match persist with
        | .ok => ({ status := 201, body := .created record }, bank')
        | .fail =>
            ({ status := 500, body := .errMsg "Internal server error" }, bank')
  | some _ =>
      ({ status := 422
         body := .errMsg "Invalid data type for 'value' (must be string)" },
       bank)

/- ------------------------------------------------------------------ -/
/- decodeURIComponent.                                                 -/
/- ------------------------------------------------------------------ -/

/-- A token of a percent-encoded string: a literal character, or one byte
written as a `%HH` escape. -/
inductive PctTok where
  | lit (c : Char)
  | byte (b : Nat)
deriving DecidableEq, Repr

/-- Split a string into literal characters and `%HH` bytes; `none` when a
`%` is not followed by two hex digits (`decodeURIComponent` throws
`URIError` there). -/
def pctTokenize : List Char → Option (List PctTok)
  | [] => some []
  | '%' :: h1 :: h2 :: rest =>
      match hexDigit h1, hexDigit h2 with
      | some a, some b => (pctTokenize rest).map (PctTok.byte (a * 16 + b) :: ·)
      | _, _ => none
  | '%' :: _ => none
  | c :: rest => (pctTokenize rest).map (PctTok.lit c :: ·)

/-- A UTF-8 continuation byte. -/
def utf8Cont (b : Nat) : Bool := 0x80 ≤ b && b ≤ 0xBF

/-- Allowed second byte of a three-byte UTF-8 sequence led by `b`. -/
def utf8Second3 (b b2 : Nat) : Bool :=
  if b = 0xE0 then 0xA0 ≤ b2 && b2 ≤ 0xBF
  else if b = 0xED then 0x80 ≤ b2 && b2 ≤ 0x9F
  else utf8Cont b2

/-- Allowed second byte of a four-byte UTF-8 sequence led by `b`. -/
def utf8Second4 (b b2 : Nat) : Bool :=
  if b = 0xF0 then 0x90 ≤ b2 && b2 ≤ 0xBF
  else if b = 0xF4 then 0x80 ≤ b2 && b2 ≤ 0x8F
  else utf8Cont b2

/-- Reassemble percent-decoded bytes as UTF-8 characters; `none` models the
`URIError` thrown on an ill-formed escape sequence. -/
def utf8Assemble : List PctTok → Option (List Char)
  | [] => some []
  | .lit c :: rest => (utf8Assemble rest).map (c :: ·)
  | .byte b :: rest =>
    if b < 0x80 then (utf8Assemble rest).map (Char.ofNat b :: ·)
    else if 0xC2 ≤ b && b ≤ 0xDF then
      match rest with
      | .byte b2 :: rest2 =>
        if utf8Cont b2 then
          (utf8Assemble rest2).map
            (Char.ofNat ((b - 0xC0) * 64 + (b2 - 0x80)) :: ·)
        else none
      | _ => none
    else if 0xE0 ≤ b && b ≤ 0xEF then
      match rest with
      | .byte b2 :: .byte b3 :: rest2 =>
        if utf8Second3 b b2 && utf8Cont b3 then
          (utf8Assemble rest2).map
            (Char.ofNat ((b - 0xE0) * 4096 + (b2 - 0x80) * 64 + (b3 - 0x80)) :: ·)
        else none
      | _ => none
    else if 0xF0 ≤ b && b ≤ 0xF4 then
      match rest with
      | .byte b2 :: .byte b3 :: .byte b4 :: rest2 =>
        if utf8Second4 b b2 && utf8Cont b3 && utf8Cont b4 then
          (utf8Assemble rest2).map
            (Char.ofNat
              ((b - 0xF0) * 262144 + (b2 - 0x80) * 4096 +
                (b3 - 0x80) * 64 + (b4 - 0x80)) :: ·)
        else none
      | _ => none
    else none

/-- JS `decodeURIComponent`; `none` models a thrown `URIError`. -/
def decodeURIComponentM (s : String) : Option String :=
  (pctTokenize s.data).bind (fun toks => (utf8Assemble toks).map String.mk)

/- ------------------------------------------------------------------ -/
/- Get-one handler (`getStringHandler` of server.js).                  -/
/- ------------------------------------------------------------------ -/

/-- The GET /strings/:value handler. There is no try/catch in the source:
when `decodeURIComponent` throws, the exception leaves the handler and no
response is written, modelled by a `none` response. -/
def getStringHandler (seg : String) (bank : List StringRecord) :
    Option HttpResponse × List StringRecord :=
  match decodeURIComponentM seg with
  | none => (none, bank)
  | some decodedValue =>
    match bank.find? (fun el => el.value == decodedValue) with
    | some r => (some { status := 200, body := .fetched r }, bank)
    | none =>
        (some { status := 404
                body := .errMsg "String does not exist in the system" }, bank)

/- ------------------------------------------------------------------ -/
/- List/filter handler (`getAllStringsHandler` of server.js).          -/
/- ------------------------------------------------------------------ -/

/-- The raw query-string parameters of GET /strings; `none` is an absent
parameter, `some raw` its undecoded text value. -/
structure ListQuery where
  is_palindrome : Option String := none
  min_length : Option String := none
  max_length : Option String := none
  word_count : Option String := none
  contains_character : Option String := none
deriving DecidableEq, Repr

/-- The `is_palindrome` filter step: literal comparison of the raw text with
`"true"`; this step cannot throw. -/
def lfPalindromeStep (q : ListQuery)
    (acc : List StringRecord × FiltersApplied) :
    List StringRecord × FiltersApplied :=
  match q.is_palindrome with
  | none => acc
  | some raw =>
    let b := raw == "true"
    ((acc.1.filter fun s => s.properties.is_palindrome == b),
     { acc.2 with is_palindrome := some b })

/-- The `min_length` filter step; a `NaN` parse throws, observed as `none`. -/
def lfMinStep (q : ListQuery) (acc : List StringRecord × FiltersApplied) :
    Option (List StringRecord × FiltersApplied) :=
  match q.min_length with
  | none => some acc
  | some raw =>
    match jsParseInt raw with
    | none => none
    | some m =>
        some ((acc.1.filter fun s => decide (m ≤ (s.properties.length : Int))),
              { acc.2 with min_length := some m })

/-- The `max_length` filter step. -/
def lfMaxStep (q : ListQuery) (acc : List StringRecord × FiltersApplied) :
    Option (List StringRecord × FiltersApplied) :=
  match q.max_length with
  | none => some acc
  | some raw =>
    match jsParseInt raw with
    | none => none
    | some m =>
        some ((acc.1.filter fun s => decide ((s.properties.length : Int) ≤ m)),
              { acc.2 with max_length := some m })

/-- The `word_count` filter step. -/
def lfWordStep (q : ListQuery) (acc : List StringRecord × FiltersApplied) :
    Option (List StringRecord × FiltersApplied) :=
  match q.word_count with
  | none => some acc
  | some raw =>
    match jsParseInt raw with
    | none => none
    | some m =>
        some ((acc.1.filter fun s => decide ((s.properties.word_count : Int) = m)),
              { acc.2 with word_count := some m })

/-- The `contains_character` filter step: substring containment against the
stored value; this step cannot throw. -/
def lfContainsStep (q : ListQuery)
    (acc : List StringRecord × FiltersApplied) :
    List StringRecord × FiltersApplied :=
  match q.contains_character with
  | none => acc
  | some c =>
      ((acc.1.filter fun s => strIncludes s.value c),
       { acc.2 with contains_character := some c })

/-- The try-block of the list/filter handler: the five steps in source
order, starting from a snapshot copy of the bank; `none` when a parse step
throws (caught below as the 400). -/
def applyListFilters (q : ListQuery) (bank : List StringRecord) :
    Option (List StringRecord × FiltersApplied) :=
  (lfMinStep q (lfPalindromeStep q (bank, {}))).bind fun a =>
    (lfMaxStep q a).bind fun b =>
      (lfWordStep q b).map fun c => lfContainsStep q c

/-- The GET /strings handler: 400 on any integer-parse failure, otherwise
200 with the filtered data, its count and the applied filters. The bank is
never mutated. -/
def getAllStringsHandler (q : ListQuery) (bank : List StringRecord) :
    HttpResponse × List StringRecord :=
  match applyListFilters q bank with
  | none =>
      ({ status := 400
         body := .errMsg "Invalid query parameter values or types" }, bank)
  | some (results, fa) =>
      ({ status := 200
         body := .listing { data := results
                            count := results.length
                            filters_applied := fa } }, bank)

/- ------------------------------------------------------------------ -/
/- Natural-language filter handler.                                    -/
/- ------------------------------------------------------------------ -/

/-- Maximal leading run of decimal digits. -/
def digitsTake : List Char → List Char
  | [] => []
  | c :: rest => if (decDigit c).isSome then c :: digitsTake rest else []

/-- Decimal value of a digit list. -/
def digitsToNat (l : List Char) : Nat :=
  digitsVal 10 decDigit l 0

/-- Leftmost match of the regexp of `longer than` followed by a captured
digit run: the captured number, or `none`. -/
def matchLongerThan : List Char → Option Nat
  | [] => none
  | c :: rest =>
    if listStartsWith ("longer than ".data) (c :: rest) then
      let ds := digitsTake ((c :: rest).drop ("longer than ".length))
      if ds.isEmpty then matchLongerThan rest else some (digitsToNat ds)
    else matchLongerThan rest

/-- Leftmost case-insensitive match of the regexp of `containing the
letter` followed by one captured word character. -/
def matchContainingLetter : List Char → Option Char
  | [] => none
  | c :: rest =>
    if listStartsWithCI ("containing the letter ".data) (c :: rest) then
      match (c :: rest).drop ("containing the letter ".length) with
      | d :: _ =>
        if ('a' ≤ d ∧ d ≤ 'z') ∨ ('A' ≤ d ∧ d ≤ 'Z') ∨
            ('0' ≤ d ∧ d ≤ '9') ∨ d = '_' then some d
        else matchContainingLetter rest
      | [] => matchContainingLetter rest
    else matchContainingLetter rest

/-- Heuristic rule 1: the query contains the literal `palindromic`. -/
def nlPalindromicStep (q : String)
    (acc : List StringRecord × ParsedFilters) :
    List StringRecord × ParsedFilters :=
  if strIncludes q "palindromic" then
    ((acc.1.filter fun s => s.properties.is_palindrome == true),
     { acc.2 with is_palindrome := some true })
  else acc

/-- Heuristic rule 2: the query contains the literal `single word`. -/
def nlSingleWordStep (q : String)
    (acc : List StringRecord × ParsedFilters) :
    List StringRecord × ParsedFilters :=
  if strIncludes q "single word" then
    ((acc.1.filter fun s => s.properties.word_count == 1),
     { acc.2 with word_count := some 1 })
  else acc

/-- Heuristic rule 3: the query matches `longer than N`; the filter keeps
lengths of at least `N + 1`. -/
def nlLongerStep (q : String) (acc : List StringRecord × ParsedFilters) :
    List StringRecord × ParsedFilters :=
  match matchLongerThan q.data with
  | none => acc
  | some n =>
      ((acc.1.filter fun s => decide (n + 1 ≤ s.properties.length)),
       { acc.2 with min_length := some (n + 1) })

/-- Heuristic rule 4: the query matches `containing the letter X`
case-insensitively; the captured character is filtered on and recorded. -/
def nlContainingStep (q : String) (acc : List StringRecord × ParsedFilters) :
    List StringRecord × ParsedFilters :=
  match matchContainingLetter q.data with
  | none => acc
  | some c =>
      ((acc.1.filter fun s => strIncludes s.value (String.mk [c])),
       { acc.2 with contains_character := some (String.mk [c]) })

/-- Heuristic rule 5: the query contains `first vowel` case-insensitively;
the containment filter on the literal `a` is applied and the recorded
`contains_character` is overwritten with `a`. -/
def nlFirstVowelStep (q : String) (acc : List StringRecord × ParsedFilters) :
    List StringRecord × ParsedFilters :=
  if includesCI q.data ("first vowel".data) then
    ((acc.1.filter fun s => strIncludes s.value "a"),
     { acc.2 with contains_character := some "a" })
  else acc

/-- The five heuristic rules applied cumulatively in source order to a
snapshot copy of the bank, producing the 200 body. -/
def naturalLanguageCore (q : String) (bank : List StringRecord) : NLResult :=
  let acc := nlFirstVowelStep q (nlContainingStep q (nlLongerStep q
    (nlSingleWordStep q (nlPalindromicStep q (bank, {})))))
  { data := acc.1
    count := acc.1.length
    original := q
    parsed_filters := acc.2 }

/-- The GET /strings/filter-by-natural-language handler: 400 when the
`query` parameter is absent or empty (the falsy test of `query.query || ""`),
otherwise 200 with the cumulative heuristic filtering. The bank is never
mutated. -/
def naturalLanguageHandler (q : Option String) (bank : List StringRecord) :
    HttpResponse × List StringRecord :=
  if q.getD "" == "" then
    ({ status := 400, body := .errMsg "Missing 'query' parameter" }, bank)
  else
    ({ status := 200
       body := .nlResult (naturalLanguageCore (q.getD "") bank) }, bank)

/- ------------------------------------------------------------------ -/
/- Delete handler.                                                     -/
/- ------------------------------------------------------------------ -/

/-- The DELETE /strings/:value handler. Its whole body, the
`decodeURIComponent` call included, sits in a try/catch mapping any
exception to 500; the splice happens before the awaited write, so a write
failure answers 500 with the element already removed. -/
def deleteStringHandler (persist : PersistOutcome) (seg : String)
    (bank : List StringRecord) : HttpResponse × List StringRecord :=
  match decodeURIComponentM seg with
  | none => ({ status := 500, body := .errMsg "Internal server error" }, bank)
  | some decodedValue =>
    match bank.findIdx? (fun el => el.value == decodedValue) with
    | none =>
        ({ status := 404
           body := .errMsg "String does not exist in the system" }, bank)
    | some i =>
      let bank' := bank.eraseIdx i
      match persist with
      | .ok => ({ status := 204, body := .empty }, bank')
      | .fail =>
          ({ status := 500, body := .errMsg "Internal server error" }, bank')

/- ------------------------------------------------------------------ -/
/- Dispatcher.                                                         -/
/- ------------------------------------------------------------------ -/

/-- The request methods the router distinguishes. -/
inductive Method where
  | get
  | post
  | del
  | other
deriving DecidableEq, Repr

/-- Which handler a request reaches. -/
inductive RouteChoice where
  | createRoute
  | listRoute
  | nlRoute
  | getOneRoute (seg : String)
  | deleteRoute (seg : String)
  | routeNotFound
deriving DecidableEq, Repr

/-- JS `String.prototype.split` with a one-character separator: every
occurrence of the separator cuts the string, empty pieces kept, so
`"".split(sep)` is `[""]` and `"/a/b".split("/")` is `["", "a", "b"]`. -/
def jsSplitAux (sep : Char) : List Char → List Char → List (List Char)
  | [], acc => [acc.reverse]
  | c :: rest, acc =>
    if c == sep then acc.reverse :: jsSplitAux sep rest []
    else jsSplitAux sep rest (c :: acc)

/-- JS `s.split(sep)` for a one-character separator, as used by the router
(`pathname.split("/")`). -/
def jsSplit (s : String) (sep : Char) : List String :=
  (jsSplitAux sep s.data []).map String.mk

/-- The sequential if/else route matching of server.js, in source order:
the two literal `/strings` rules, then the literal natural-language path,
then the two parametric single-segment rules, then 404. `urlParts` is the
split of the pathname on `/`. -/
def dispatch (method : Method) (pathname : String) : RouteChoice :=
  let urlParts := jsSplit pathname '/'
  if pathname == "/strings" && method == .post then .createRoute
  else if pathname == "/strings" && method == .get then .listRoute
  else if pathname == "/strings/filter-by-natural-language" && method == .get
    then .nlRoute
  else if urlParts.getD 1 "" == "strings" && urlParts.length == 3 &&
      method == .get then .getOneRoute (urlParts.getD 2 "")
  else if urlParts.getD 1 "" == "strings" && urlParts.length == 3 &&
      method == .del then .deleteRoute (urlParts.getD 2 "")
  else .routeNotFound

/- ------------------------------------------------------------------ -/
/- Startup load of the bank.                                           -/
/- ------------------------------------------------------------------ -/

/-- A JSON value, as produced by the external `JSON.parse` collaborator. -/
inductive Json where
  | jNull
  | jBool (b : Bool)
  | jNum (n : Int)
  | jStr (s : String)
  | jArr (elems : List Json)
  | jObj (fields : List (String × Json))

/-- What the startup `fs.readFile` of the storage file can yield: the file
is absent (`ENOENT`), the read fails otherwise, or the file's content is
read and handed to `JSON.parse` (whose result is `none` when parsing
throws). -/
inductive ReadOutcome where
  | enoent
  | otherReadError
  | fileContent (parsed : Option Json)

/-- The startup sequence of server.js: `stringsBank` starts as the empty
array and is assigned `JSON.parse(data)` when both the read and the parse
succeed; every failure is caught (no abort) and leaves the empty array.
Nothing checks that the parsed value is an array. -/
def loadStringsBank : ReadOutcome → Json
  | .enoent => .jArr []
  | .otherReadError => .jArr []
  | .fileContent none => .jArr []
  | .fileContent (some j) => j

/- ------------------------------------------------------------------ -/
/- Helper lemmas.                                                      -/
/- ------------------------------------------------------------------ -/

theorem bumpChar_all (P : Char → Bool) (c : Char) (acc : List (Char × Nat))
    (hacc : acc.all (fun p => P p.1) = true) (hc : P c = true) :
    (bumpChar acc c).all (fun p => P p.1) = true := by
  induction acc with
  | nil => simp [bumpChar, hc]
  | cons hd tl ih =>
    obtain ⟨k, n⟩ := hd
    simp only [List.all_cons, Bool.and_eq_true] at hacc
    by_cases hk : k = c
    · simp [bumpChar, hk, hc, hacc.2]
    · simp [bumpChar, hk, hacc.1, ih hacc.2]

theorem foldl_bumpChar_all (P : Char → Bool) (l : List Char)
    (acc : List (Char × Nat)) (hacc : acc.all (fun p => P p.1) = true)
    (hl : l.all P = true) :
    ((l.foldl bumpChar acc).all (fun p => P p.1)) = true := by
  induction l generalizing acc with
  | nil => simpa using hacc
  | cons c tl ih =>
    simp only [List.all_cons, Bool.and_eq_true] at hl
    exact ih (bumpChar acc c) (bumpChar_all P c acc hacc hl.1) hl.2

theorem filter_all (f : Char → Bool) (l : List Char) :
    (l.filter f).all f = true := by
  induction l with
  | nil => rfl
  | cons c tl ih => by_cases h : f c <;> simp [List.filter_cons, h, ih]

theorem foldl_setInsert_invariant (l : List Char) (acc : List Char)
    (h : acc.Nodup) :
    (l.foldl setInsert acc).Nodup ∧
      (l.foldl setInsert acc).toFinset = acc.toFinset ∪ l.toFinset := by
  induction l generalizing acc with
  | nil => simp [h]
  | cons c tl ih =>
    have hnd : (setInsert acc c).Nodup := by
      unfold setInsert
      split
      · exact h
      · next hc =>
          have hcm : c ∉ acc := by
            simpa using Bool.of_not_eq_true hc
          simp [List.nodup_append, h]
          exact hcm
    have hfs : (setInsert acc c).toFinset = acc.toFinset ∪ {c} := by
      unfold setInsert
      split
      · next hc =>
          have hcm : c ∈ acc := by simpa using hc
          have : c ∈ acc.toFinset := List.mem_toFinset.mpr hcm
          rw [Finset.union_eq_left.mpr (Finset.singleton_subset_iff.mpr this)]
      · simp
    obtain ⟨ihd, ihf⟩ := ih (setInsert acc c) hnd
    refine ⟨ihd, ?_⟩
    rw [List.foldl_cons, ihf, hfs, List.toFinset_cons, Finset.insert_eq,
      Finset.union_assoc]

theorem uniqueCharacters_card (s : String) :
    uniqueCharacters s = s.data.toFinset.card := by
  obtain ⟨hnd, hfs⟩ := foldl_setInsert_invariant s.data [] List.nodup_nil
  unfold uniqueCharacters
  rw [← List.toFinset_card_of_nodup hnd, hfs]
  simp

theorem characterFrequencyMap_no_space (s : String) :
    (characterFrequencyMap s).all (fun p => p.1 != ' ') = true := by
  unfold characterFrequencyMap
  exact foldl_bumpChar_all (fun c => c != ' ') (removeSpaces s) [] rfl
    (filter_all _ _)

/- ------------------------------------------------------------------ -/
/- Claim theorems.                                                     -/
/- ------------------------------------------------------------------ -/

/-- Claim C2: the character frequency map is computed over the value with
all spaces removed, so it never holds the space character as a key, while
`unique_characters` is the number of distinct characters of the unmodified
value (spaces included); for the value `"a a"` the count is 2 and the map
is exactly the single entry `a ↦ 2`. -/
theorem analyzer_space_asymmetry :
    (∀ s : String,
      (characterFrequencyMap s).all (fun p => p.1 != ' ') = true) ∧
    (∀ s : String, uniqueCharacters s = s.data.toFinset.card) ∧
    uniqueCharacters "a a" = 2 ∧
    characterFrequencyMap "a a" = [('a', 2)] :=
  ⟨characterFrequencyMap_no_space, uniqueCharacters_card, by decide, by decide⟩

/-- Claim C3: `is_palindrome` is true exactly when the value is non-empty
and equal to its own character-by-character reversal, and it is false on
the empty string. -/
theorem palindrome_iff_reverse :
    (∀ s : String,
      isPalindrome s = (decide (s ≠ "") && s.data.reverse == s.data)) ∧
    isPalindrome "" = false := by
  refine ⟨fun s => ?_, rfl⟩
  obtain ⟨data⟩ := s
  by_cases h : data = []
  · subst h
    rfl
  · have h1 : 0 < data.length := List.length_pos.mpr h
    have h2 : String.mk data ≠ "" := by
      simpa [String.ext_iff] using h
    simp [isPalindrome, String.length, h1, h2]

/-- Claim C5: a GET request whose path is exactly
`/strings/filter-by-natural-language` is dispatched to the natural-language
handler and not to the parametric get-one handler, even though the path
also has exactly the segment shape the parametric rule matches: the literal
rule is evaluated earlier in the first-match-wins chain. -/
theorem nl_route_precedence :
    dispatch Method.get "/strings/filter-by-natural-language" =
      RouteChoice.nlRoute ∧
    (jsSplit "/strings/filter-by-natural-language" '/').length = 3 ∧
    (jsSplit "/strings/filter-by-natural-language" '/').getD 1 "" =
      "strings" ∧
    ∀ seg, (dispatch Method.get "/strings/filter-by-natural-language" ==
      RouteChoice.getOneRoute seg) = false :=
  ⟨rfl, rfl, rfl, fun _ => rfl⟩

/-- Claim C9 counterexample: storage content that is syntactically valid
JSON but not an array (here the number 5) is assigned to the bank with no
array check, so the collection after startup is not the empty sequence. -/
theorem load_nonarray_counterexample :
    loadStringsBank (ReadOutcome.fileContent (some (Json.jNum 5))) =
      Json.jNum 5 ∧
    Json.jNum 5 ≠ Json.jArr [] :=
  ⟨rfl, fun h => Json.noConfusion h⟩

/-- Claim C9 amended: at startup the collection is the empty array when the
storage file is absent, when reading it fails for any other reason, or when
`JSON.parse` throws; but when the content parses as any JSON value the bank
becomes that value unchecked, even when it is not an array. No branch
aborts the process (the loader is total). -/
theorem load_startup_behavior :
    loadStringsBank ReadOutcome.enoent = Json.jArr [] ∧
    loadStringsBank ReadOutcome.otherReadError = Json.jArr [] ∧
    loadStringsBank (ReadOutcome.fileContent none) = Json.jArr [] ∧
    ∀ j, loadStringsBank (ReadOutcome.fileContent (some j)) = j :=
  ⟨rfl, rfl, rfl, fun _ => rfl⟩

/-- Claim C10: the get-one, list/filter and natural-language handlers leave
the collection exactly as they found it, for every request. -/
theorem read_handlers_preserve_bank :
    (∀ seg bank, (getStringHandler seg bank).2 = bank) ∧
    (∀ q bank, (getAllStringsHandler q bank).2 = bank) ∧
    (∀ q bank, (naturalLanguageHandler q bank).2 = bank) := by
  refine ⟨fun seg bank => ?_, fun q bank => ?_, fun q bank => ?_⟩
  · unfold getStringHandler
    split
    · rfl
    · split <;> rfl
  · unfold getAllStringsHandler
    split <;> rfl
  · unfold naturalLanguageHandler
    split <;> rfl

/-- Claim C1: the create handler's checks run in the fixed source order,
each failure answering immediately and leaving the collection unchanged:
absent `value` → 400, non-string `value` → 422, duplicate `value` → 409
(each with its exact message); and creating the same value twice yields
201 and then 409. -/
theorem create_validation_order :
    (∀ p h t b bank, b.value = none →
      finalHandler p h t b bank =
        ({ status := 400
           body := .errMsg "Invalid request body or missing 'value' field" },
         bank)) ∧
    (∀ p h t b v bank, b.value = some v → v.isStr = false →
      finalHandler p h t b bank =
        ({ status := 422
           body := .errMsg "Invalid data type for 'value' (must be string)" },
         bank)) ∧
    (∀ p h t b s bank, b.value = some (.vStr s) →
      bank.any (fun el => el.value == s) = true →
      finalHandler p h t b bank =
        ({ status := 409
           body := .errMsg "String already exists in the system" }, bank)) ∧
    (∀ h1 t1 h2 t2 p2 s bank,
      bank.any (fun el => el.value == s) = false →
      (finalHandler .ok h1 t1 { value := some (.vStr s) } bank).1.status =
        201 ∧
      finalHandler p2 h2 t2 { value := some (.vStr s) }
          (finalHandler .ok h1 t1 { value := some (.vStr s) } bank).2 =
        ({ status := 409
           body := .errMsg "String already exists in the system" },
         (finalHandler .ok h1 t1 { value := some (.vStr s) } bank).2)) := by
  refine ⟨fun p h t b bank hb => ?_, fun p h t b v bank hb hv => ?_,
    fun p h t b s bank hb hdup => ?_, fun h1 t1 h2 t2 p2 s bank hnd => ?_⟩
  · simp [finalHandler, hb]
  · cases v <;> simp [JsVal.isStr] at hv <;> simp [finalHandler, hb]
  · simp [finalHandler, hb, hdup]
  · have hbank2 :
        (finalHandler .ok h1 t1 { value := some (.vStr s) } bank).2 =
          bank ++ [buildRecord h1 t1 s] := by
      simp [finalHandler, hnd]
    have hdup2 :
        (bank ++ [buildRecord h1 t1 s]).any (fun el => el.value == s) =
          true := by
      simp [List.any_append, buildRecord]
    refine ⟨by simp [finalHandler, hnd], ?_⟩
    rw [hbank2]
    simp [finalHandler, hdup2]

/-- Witness for C1: a missing field answers 400 on the empty bank, the
number 3 as value answers 422, and creating `"ab"` twice on the empty bank
answers 201 and then 409, all by the theorem at those inputs. -/
theorem create_validation_order_witness :
    finalHandler .ok "h0" "t0" {} [] =
      ({ status := 400
         body := .errMsg "Invalid request body or missing 'value' field" },
       []) ∧
    finalHandler .ok "h0" "t0" { value := some (.vNum 3) } [] =
      ({ status := 422
         body := .errMsg "Invalid data type for 'value' (must be string)" },
       []) ∧
    (finalHandler .ok "h1" "t1" { value := some (.vStr "ab") } []).1.status =
      201 ∧
    finalHandler .ok "h2" "t2" { value := some (.vStr "ab") }
        (finalHandler .ok "h1" "t1" { value := some (.vStr "ab") } []).2 =
      ({ status := 409
         body := .errMsg "String already exists in the system" },
       (finalHandler .ok "h1" "t1" { value := some (.vStr "ab") } []).2) := by
  refine ⟨create_validation_order.1 .ok "h0" "t0" {} [] rfl,
    create_validation_order.2.1 .ok "h0" "t0" _ (.vNum 3) [] rfl rfl, ?_, ?_⟩
  · exact (create_validation_order.2.2.2 "h1" "t1" "h2" "t2" .ok "ab" []
      rfl).1
  · exact (create_validation_order.2.2.2 "h1" "t1" "h2" "t2" .ok "ab" []
      rfl).2

/-- Claim C4: any present `min_length`, `max_length` or `word_count`
parameter whose value does not parse as an integer makes the whole GET
/strings request answer 400 with the exact error body, with no data and no
partial filtering, whatever other parameters are present. -/
theorem filter_invalid_param_400 :
    ∀ q bank,
      ((∃ raw, q.min_length = some raw ∧ jsParseInt raw = none) ∨
       (∃ raw, q.max_length = some raw ∧ jsParseInt raw = none) ∨
       (∃ raw, q.word_count = some raw ∧ jsParseInt raw = none)) →
      getAllStringsHandler q bank =
        ({ status := 400
           body := .errMsg "Invalid query parameter values or types" },
         bank) := by
  intro q bank hfail
  have habort : applyListFilters q bank = none := by
    rcases hfail with ⟨raw, hq, hp⟩ | ⟨raw, hq, hp⟩ | ⟨raw, hq, hp⟩
    · simp [applyListFilters, lfMinStep, hq, hp]
    · unfold applyListFilters
      cases hmin : lfMinStep q (lfPalindromeStep q (bank, {})) with
      | none => rfl
      | some a => simp [lfMaxStep, hq, hp]
    · unfold applyListFilters
      cases hmin : lfMinStep q (lfPalindromeStep q (bank, {})) with
      | none => rfl
      | some a =>
        cases hmax : lfMaxStep q a with
        | none => simp [hmax]
        | some b => simp [hmax, lfWordStep, hq, hp]
  simp [getAllStringsHandler, habort]

/-- Witness for C4: `min_length=abc` alongside a valid `is_palindrome=true`
answers 400 on the empty bank, by the theorem at that query. -/
theorem filter_invalid_param_400_witness :
    getAllStringsHandler
        { is_palindrome := some "true", min_length := some "abc" } [] =
      ({ status := 400
         body := .errMsg "Invalid query parameter values or types" }, []) :=
  filter_invalid_param_400 _ [] (Or.inl ⟨"abc", rfl, rfl⟩)

/-- Claim C8 counterexample: for the path segment `%` the percent-decoding
throws, the get-one handler has no try/catch around it, and the request
receives no HTTP response at all (in the embedding: the handler yields no
response), contradicting the claim that such a request still receives a
response. -/
theorem get_malformed_segment_counterexample :
    decodeURIComponentM "%" = none ∧ (getStringHandler "%" []).1 = none :=
  ⟨rfl, rfl⟩

/-- Claim C8 amended: the create and delete handlers wrap their bodies in a
try/catch that maps any unanticipated failure (persistence rejection, or a
percent-decoding error in delete) to a 500 response; but the get-one
handler percent-decodes with no surrounding catch and the dispatcher has no
catch-all, so a GET /strings/:value request with a malformed
percent-encoded segment produces no HTTP response — the exception escapes
the handler boundary. -/
theorem handler_exception_policy :
    (∀ h t s bank, bank.any (fun el => el.value == s) = false →
      finalHandler .fail h t { value := some (.vStr s) } bank =
        ({ status := 500, body := .errMsg "Internal server error" },
         bank ++ [buildRecord h t s])) ∧
    (∀ p seg bank, decodeURIComponentM seg = none →
      deleteStringHandler p seg bank =
        ({ status := 500, body := .errMsg "Internal server error" },
         bank)) ∧
    (∀ seg bank, decodeURIComponentM seg = none →
      getStringHandler seg bank = (none, bank)) := by
  refine ⟨fun h t s bank hnd => ?_, fun p seg bank hdec => ?_,
    fun seg bank hdec => ?_⟩
  · simp [finalHandler, hnd]
  · simp [deleteStringHandler, hdec]
  · simp [getStringHandler, hdec]

/-- Witness for C8's amended theorem: a failed write while creating `"x"`
answers 500, deleting with the malformed segment `%` answers 500, and a get
with segment `%` writes no response, by the theorem at those inputs. -/
theorem handler_exception_policy_witness :
    finalHandler .fail "h" "t" { value := some (.vStr "x") } [] =
      ({ status := 500, body := .errMsg "Internal server error" },
       [buildRecord "h" "t" "x"]) ∧
    deleteStringHandler .ok "%" [] =
      ({ status := 500, body := .errMsg "Internal server error" }, []) ∧
    getStringHandler "%" [] = (none, []) := by
  refine ⟨?_, handler_exception_policy.2.1 .ok "%" [] rfl,
    handler_exception_policy.2.2 "%" [] rfl⟩
  have := handler_exception_policy.1 "h" "t" "x" [] rfl
  simpa using this

/-- Claim C6: the natural-language rules are applied cumulatively in fixed
order; when the query matches both the `containing the letter X` rule and
the `first vowel` rule, every record that survives passed both containment
filters while the recorded `contains_character` is overwritten to `a`; a
non-empty query answers 200 with the cumulative filtering; and the query
`all single word palindromic strings` against a bank of `level` and
`hello world` keeps only `level` with parsed filters
`is_palindrome = true, word_count = 1`. -/
theorem nl_cumulative_overwrite :
    (∀ q bank c, matchContainingLetter q.data = some c →
      includesCI q.data ("first vowel".data) = true →
      (naturalLanguageCore q bank).parsed_filters.contains_character =
        some "a" ∧
      ∀ r ∈ (naturalLanguageCore q bank).data,
        strIncludes r.value (String.mk [c]) = true ∧
          strIncludes r.value "a" = true) ∧
    (∀ q bank, (q == "") = false →
      naturalLanguageHandler (some q) bank =
        ({ status := 200, body := .nlResult (naturalLanguageCore q bank) },
         bank)) ∧
    (∀ h1 t1 h2 t2,
      naturalLanguageCore "all single word palindromic strings"
          [buildRecord h1 t1 "level", buildRecord h2 t2 "hello world"] =
        { data := [buildRecord h1 t1 "level"]
          count := 1
          original := "all single word palindromic strings"
          parsed_filters := { is_palindrome := some true
                              word_count := some 1 } }) := by
  refine ⟨fun q bank c hm hfv => ?_, fun q bank hq => ?_,
    fun h1 t1 h2 t2 => ?_⟩
  · constructor
    · simp [naturalLanguageCore, nlFirstVowelStep, hfv]
    · intro r hr
      simp only [naturalLanguageCore, nlFirstVowelStep, hfv, if_true,
        nlContainingStep, hm] at hr
      obtain ⟨hr1, h2a⟩ := List.mem_filter.mp hr
      obtain ⟨_, h2c⟩ := List.mem_filter.mp hr1
      exact ⟨h2c, h2a⟩
  · simp [naturalLanguageHandler, hq]
  · rfl

/-- Witness for C6: the query `words containing the letter z and first
vowel` matches both containment rules, and by the theorem the recorded
`contains_character` on the empty bank is `a`. -/
theorem nl_cumulative_overwrite_witness :
    (naturalLanguageCore "words containing the letter z and first vowel"
        []).parsed_filters.contains_character = some "a" :=
  (nl_cumulative_overwrite.1 "words containing the letter z and first vowel"
    [] 'z' rfl rfl).1

/-- Claim C7: when creating a value succeeds with 201, an immediately
following get-one request whose segment decodes to that exact value answers
200 with the very record of the create response (identical properties
included), and the record also appears in the data of an unfiltered GET
/strings list. -/
theorem create_get_roundtrip :
    ∀ h t s seg bank,
      bank.any (fun el => el.value == s) = false →
      decodeURIComponentM seg = some s →
      (finalHandler .ok h t { value := some (.vStr s) } bank).1 =
        { status := 201, body := .created (buildRecord h t s) } ∧
      getStringHandler seg
          ((finalHandler .ok h t { value := some (.vStr s) } bank).2) =
        (some { status := 200, body := .fetched (buildRecord h t s) },
         (finalHandler .ok h t { value := some (.vStr s) } bank).2) ∧
      ∃ lr,
        getAllStringsHandler {}
            ((finalHandler .ok h t { value := some (.vStr s) } bank).2) =
          ({ status := 200, body := .listing lr },
           (finalHandler .ok h t { value := some (.vStr s) } bank).2) ∧
        buildRecord h t s ∈ lr.data := by
  intro h t s seg bank hnd hdec
  have hbank2 :
      (finalHandler .ok h t { value := some (.vStr s) } bank).2 =
        bank ++ [buildRecord h t s] := by
    simp [finalHandler, hnd]
  have hfindbank : bank.find? (fun el => el.value == s) = none := by
    rw [List.find?_eq_none]
    intro x hx
    simp only [List.any_eq_false] at hnd
    simp [hnd x hx]
  have hfind :
      (bank ++ [buildRecord h t s]).find? (fun el => el.value == s) =
        some (buildRecord h t s) := by
    rw [List.find?_append, hfindbank]
    simp [List.find?, buildRecord]
  refine ⟨by simp [finalHandler, hnd], ?_, ?_⟩
  · rw [hbank2]
    simp [getStringHandler, hdec, hfind]
  · rw [hbank2]
    refine ⟨{ data := bank ++ [buildRecord h t s]
              count := (bank ++ [buildRecord h t s]).length
              filters_applied := {} }, ?_, by simp⟩
    simp [getAllStringsHandler, applyListFilters, lfPalindromeStep,
      lfMinStep, lfMaxStep, lfWordStep, lfContainsStep]

/-- Witness for C7: creating `"ab"` on the empty bank and immediately
fetching the segment `ab` returns the created record, by the theorem at
those inputs. -/
theorem create_get_roundtrip_witness :
    (finalHandler .ok "h" "t" { value := some (.vStr "ab") } []).1 =
      { status := 201, body := .created (buildRecord "h" "t" "ab") } ∧
    getStringHandler "ab"
        ((finalHandler .ok "h" "t" { value := some (.vStr "ab") } []).2) =
      (some { status := 200, body := .fetched (buildRecord "h" "t" "ab") },
       (finalHandler .ok "h" "t" { value := some (.vStr "ab") } []).2) :=
  ⟨(create_get_roundtrip "h" "t" "ab" "ab" [] rfl rfl).1,
   (create_get_roundtrip "h" "t" "ab" "ab" [] rfl rfl).2.1⟩

end StringAnalysis
